import Mathlib

/-!
Verification of the CHULUBME memory-management core
(`code/engine/core/memory.h`): the allocator strategies, the
MemoryManager registry and the `AllocatedPtr` ownership wrapper.

Shallow embedding conventions:
* `size_t` is modelled as `Nat`; where C++ wraparound matters the
  value is reduced `% 2^64` explicitly.
* Raw addresses are `Nat`; the null pointer is `Option.none`.
* The observable interactions of `AllocatedPtr` with the element type
  and the `MemoryManager` (destructor call, `Free`, `Allocate`,
  in-place construction, constructor throw) are recorded as an
  explicit effect trace.
-/

namespace CHULUBME

/-- `MemoryManager::AllocatorType` from memory.h (lines 156-161). -/
inductive AllocatorType where
  | Default
  | Linear
  | Pool
  | Stack
deriving DecidableEq, Repr

/-- Observable effects of `AllocatedPtr` operations: a storage
reservation from the manager, an in-place constructor call, a
constructor throw, a destructor call, a `MemoryManager::Free`. -/
inductive Effect where
  | alloc (kind : AllocatorType) (size addr : Nat)
  | construct (addr : Nat)
  | ctorThrow (addr : Nat)
  | dtor (addr : Nat)
  | free (kind : AllocatorType) (addr : Nat)
deriving DecidableEq, Repr

/-- The bound allocator of an `AllocatedPtr`, abstracted to what the
claims observe: its `GetAllocatedSize()` in bytes, and the next
address it hands out. `MemoryManager::Allocate(Type, sz)` reserves
`sz` bytes from it; `MemoryManager::Free(Type, p)` gives the block
(of the recorded object size) back. -/
structure Mgr where
  allocatedSize : Nat
  nextAddr : Nat
deriving DecidableEq, Repr

/-- `MemoryManager::Instance().Allocate(Type, sz)`: returns a fresh
address and grows the bound allocator's allocated size by `sz`. -/
def mgrAllocate (m : Mgr) (sz : Nat) : Nat × Mgr :=
  (m.nextAddr, ⟨m.allocatedSize + sz, m.nextAddr + sz⟩)

/-- `MemoryManager::Instance().Free(Type, p)` for a block of `sz`
bytes: the bound allocator's allocated size shrinks by `sz`. -/
def mgrFree (m : Mgr) (sz : Nat) : Mgr :=
  ⟨m.allocatedSize - sz, m.nextAddr⟩

/-!
## AllocatedPtr (memory.h lines 212-282)

The wrapper state is its `m_ptr` member, `Option Nat` (none = null).
Each operation is a function of the wrapper state and the manager
state, returning the new states and the effect trace, translated
line by line from the inline member bodies. `sz` stands for
`sizeof(T)`; `throws` records whether `T`'s constructor throws for
the supplied argument list.
-/

/-- The initializing constructor `AllocatedPtr(Args&&... args)`
(memory.h lines 222-225):
`m_ptr = new (MemoryManager::Instance().Allocate(Type, sizeof(T))) T(args...);`
Plain placement new: when the `T` constructor throws, the exception
propagates and no `Free` is issued for the reserved storage.
The first component is `none` when the call threw, otherwise
`some m_ptr`. -/
def ctorInit (kind : AllocatorType) (sz : Nat) (throws : Bool) (m : Mgr) :
    Option (Option Nat) × Mgr × List Effect :=
  let p := mgrAllocate m sz
  if throws then (none, p.2, [Effect.alloc kind sz p.1, Effect.ctorThrow p.1])
  else (some (some p.1), p.2, [Effect.alloc kind sz p.1, Effect.construct p.1])

/-- The destructor `~AllocatedPtr()` (memory.h lines 228-233):
`if (m_ptr) { m_ptr->~T(); MemoryManager::Instance().Free(Type, m_ptr); }` -/
def dtorRun (kind : AllocatorType) (sz : Nat) (p : Option Nat) (m : Mgr) :
    Mgr × List Effect :=
  match p with
  | some a => (mgrFree m sz, [Effect.dtor a, Effect.free kind a])
  | none => (m, [])

/-- `Reset()` with no arguments (memory.h lines 268-274): destroy
and free when non-null, then null the pointer. -/
def resetNone (kind : AllocatorType) (sz : Nat) (p : Option Nat) (m : Mgr) :
    Option Nat × Mgr × List Effect :=
  match p with
  | some a => (none, mgrFree m sz, [Effect.dtor a, Effect.free kind a])
  | none => (p, m, [])

/-- `Reset(Args&&... args)` (memory.h lines 277-281), the code path
written out: `Reset();` then
`m_ptr = new (MemoryManager::Instance().Allocate(Type, sizeof(T))) T(args...);` -/
def resetArgs (kind : AllocatorType) (sz : Nat) (throws : Bool)
    (p : Option Nat) (m : Mgr) : Option (Option Nat) × Mgr × List Effect :=
  match p with
  | some a =>
    let m1 := mgrFree m sz
    let q := mgrAllocate m1 sz
    if throws then
      (none, q.2, [Effect.dtor a, Effect.free kind a,
                   Effect.alloc kind sz q.1, Effect.ctorThrow q.1])
    else
      (some (some q.1), q.2, [Effect.dtor a, Effect.free kind a,
                              Effect.alloc kind sz q.1, Effect.construct q.1])
  | none =>
    let q := mgrAllocate m sz
    if throws then (none, q.2, [Effect.alloc kind sz q.1, Effect.ctorThrow q.1])
    else (some (some q.1), q.2, [Effect.alloc kind sz q.1, Effect.construct q.1])

/-- The spec's description of `Reset(args...)`: `Reset()` with no
arguments, followed by constructing a new value with the arguments
from the bound allocator kind (the initializing-constructor body). -/
def resetArgsSpec (kind : AllocatorType) (sz : Nat) (throws : Bool)
    (p : Option Nat) (m : Mgr) : Option (Option Nat) × Mgr × List Effect :=
  let r1 := resetNone kind sz p m
  let r2 := ctorInit kind sz throws r1.2.1
  (r2.1, r2.2.1, r1.2.2 ++ r2.2.2)

/-- `operator bool` (memory.h line 265): `m_ptr != nullptr`. -/
def toBoolFn (p : Option Nat) : Bool := p.isSome

/-- `Get()` (memory.h line 262): returns the raw pointer `m_ptr`. -/
def getFn (p : Option Nat) : Option Nat := p

/-!
## A store of AllocatedPtr objects

To talk about object identity (self-move-assignment, exclusive
ownership across several wrappers), wrapper objects live in a store
indexed by `Nat` identities; a slot is the object's `m_ptr`, and
unconstructed objects are `none`-valued slots.
-/

/-- A store of `AllocatedPtr` objects: object identity `↦ m_ptr`. -/
def Store : Type := Nat → Option Nat

/-- Move assignment `operator=(AllocatedPtr&& other)`
(memory.h lines 241-251) acting on the store: the `dst = src` case is
the `this != &other` guard (no work, no effects); otherwise the
destination releases its held value (destructor, then `Free`), takes
the source's pointer and nulls the source. -/
def moveAssignS (s : Store) (dst src : Nat) (kind : AllocatorType) :
    Store × List Effect :=
  if dst = src then (s, [])
  else
    (Function.update (Function.update s dst (s src)) src none,
     match s dst with
     | some a => [Effect.dtor a, Effect.free kind a]
     | none => [])

/-- Move construction `AllocatedPtr(AllocatedPtr&& other)`
(memory.h lines 236-238) acting on the store: the new object `j`
takes `other`'s pointer and `other` is nulled; no effects. -/
def moveCtorS (s : Store) (j src : Nat) : Store :=
  Function.update (Function.update s j (s src)) src none

/-- Per-address exclusive ownership: no address is held by two
distinct wrapper objects. -/
def UniqueOwner (s : Store) : Prop :=
  ∀ i j a, s i = some a → s j = some a → i = j

/-- One step of the `AllocatedPtr` interface on the store. Copy
construction and copy assignment are deleted in the source
(memory.h lines 254-255), so no copy step exists. Freshness
hypotheses on constructing steps record that the allocator hands out
an address that no live wrapper currently holds. -/
inductive Step : Store → Store → Prop where
  | ctorDefault (s : Store) (j : Nat) (hj : s j = none) :
      Step s (Function.update s j none)
  | ctorInitStep (s : Store) (j a : Nat) (hj : s j = none)
      (ha : ∀ i, s i ≠ some a) :
      Step s (Function.update s j (some a))
  | moveCtorStep (s : Store) (j src : Nat) (hj : s j = none) (hne : j ≠ src) :
      Step s (moveCtorS s j src)
  | moveAssignStep (s : Store) (dst src : Nat) (k : AllocatorType) :
      Step s (moveAssignS s dst src k).1
  | resetStep (s : Store) (i : Nat) :
      Step s (Function.update s i none)
  | resetWithStep (s : Store) (i a : Nat) (ha : ∀ j, j ≠ i → s j ≠ some a) :
      Step s (Function.update s i (some a))
  | dtorStep (s : Store) (i : Nat) :
      Step s (Function.update s i none)

/-!
## PoolAllocator size accounting (memory.h lines 71-101)

Only the bookkeeping fields the size getters read are modelled; the
getters are the inline bodies from the header, with `size_t`
arithmetic reduced `% 2^64`. On the invariant domain
`freeBlocks ≤ blockCount` the `Nat` subtraction agrees with the
C++ unsigned subtraction.
-/

/-- Width of `size_t` on the target platform. -/
def sizetMod : Nat := 2 ^ 64

/-- PoolAllocator bookkeeping state (memory.h lines 72-78). -/
structure PoolAllocator where
  blockSize : Nat
  blockCount : Nat
  freeBlocks : Nat
deriving DecidableEq, Repr

/-- `PoolAllocator::GetAllocatedSize` (memory.h line 97):
`(m_blockCount - m_freeBlocks) * m_blockSize`. -/
def PoolAllocator.GetAllocatedSize (p : PoolAllocator) : Nat :=
  ((p.blockCount - p.freeBlocks) * p.blockSize) % sizetMod

/-- `PoolAllocator::GetTotalSize` (memory.h line 100):
`m_blockCount * m_blockSize`. -/
def PoolAllocator.GetTotalSize (p : PoolAllocator) : Nat :=
  (p.blockCount * p.blockSize) % sizetMod

/-!
## LinearAllocator (memory.h lines 35-66)

The header carries the state fields and the inline getters
(`GetAllocatedSize` = `m_offset`, `GetTotalSize` = `m_size`); the
body of `Allocate` lives in a translation unit that is not part of
the source tree, so it is modelled from the spec. Addresses are
offsets from the base address (the buffer base is taken to be
aligned).
-/

/-- LinearAllocator state (memory.h lines 37-39): capacity `m_size`
and bump offset `m_offset`. -/
structure LinearAllocator where
  size : Nat
  offset : Nat
deriving DecidableEq, Repr

/-- The next `align`-aligned offset at or after `off`; an alignment
of `0` requests the natural platform alignment, which adds no
padding over an already word-aligned bump pointer. -/
def alignUp (off align : Nat) : Nat :=
  if align = 0 then off else off + (align - off % align) % align

/-- `LinearAllocator::GetAllocatedSize` (memory.h line 62). -/
def LinearAllocator.GetAllocatedSize (l : LinearAllocator) : Nat := l.offset

/-- `LinearAllocator.GetTotalSize` (memory.h line 65). -/
def LinearAllocator.GetTotalSize (l : LinearAllocator) : Nat := l.size

/-- Modelled from the spec: the body of `LinearAllocator::Allocate`
(declared memory.h line 53) is missing from the source tree.
Spec §4.2/§3: "computes the next aligned offset ≥ current offset,
reserves `size` bytes there, fails with an out-of-memory condition
if the reserved range would exceed the buffer"; a failing call
leaves the allocator unchanged. Returns the offset of the
reservation, or `none` on failure. -/
def LinearAllocator.Allocate (l : LinearAllocator) (sz align : Nat) :
    Option Nat × LinearAllocator :=
  if alignUp l.offset align + sz ≤ l.size then
    (some (alignUp l.offset align), ⟨l.size, alignUp l.offset align + sz⟩)
  else (none, l)

/-- Run a list of `(size, alignment)` requests against a
LinearAllocator, collecting each call's result. -/
def runAllocs (l : LinearAllocator) : List (Nat × Nat) →
    LinearAllocator × List (Option Nat)
  | [] => (l, [])
  | r :: rest =>
    ((runAllocs (l.Allocate r.1 r.2).2 rest).1,
     (l.Allocate r.1 r.2).1 :: (runAllocs (l.Allocate r.1 r.2).2 rest).2)

/-- The cumulative aligned size of a request list, starting from
offset `off`: each request first pads `off` to its alignment, then
adds its size. -/
def cumAligned (off : Nat) : List (Nat × Nat) → Nat
  | [] => off
  | r :: rest => cumAligned (alignUp off r.2 + r.1) rest

/-!
## StackAllocator (memory.h lines 106-148)

As with the linear allocator, the header has the state fields and
the inline `GetAllocatedSize`/`GetTotalSize`; `Allocate`,
`GetMarker` and `FreeToMarker` are modelled from the spec.
-/

/-- `StackAllocator::Marker` (memory.h lines 108-111): a saved
`(offset, adjustment)` pair. -/
structure Marker where
  offset : Nat
  adjustment : Nat
deriving DecidableEq, Repr

/-- StackAllocator state (memory.h lines 113-116) extended, per spec
§4.4, with the alignment adjustment of the most recent allocation so
that it can be undone. -/
structure StackAllocator where
  size : Nat
  offset : Nat
  lastAdjustment : Nat
deriving DecidableEq, Repr

/-- `StackAllocator::GetAllocatedSize` (memory.h line 144). -/
def StackAllocator.GetAllocatedSize (s : StackAllocator) : Nat := s.offset

/-- `StackAllocator.GetTotalSize` (memory.h line 147). -/
def StackAllocator.GetTotalSize (s : StackAllocator) : Nat := s.size

/-- Modelled from the spec: the body of `StackAllocator::GetMarker`
(declared memory.h line 135) is missing from the source tree.
Spec §4.4: "`GetMarker()` captures `(offset, pendingAdjustment)`". -/
def StackAllocator.GetMarker (s : StackAllocator) : Marker :=
  ⟨s.offset, s.lastAdjustment⟩

/-- Modelled from the spec: the body of `StackAllocator::FreeToMarker`
(declared memory.h line 138) is missing from the source tree.
Spec §3/§4.4: "`FreeToMarker(marker)` restores `offset` to the
marker's saved value". -/
def StackAllocator.FreeToMarker (s : StackAllocator) (m : Marker) :
    StackAllocator :=
  ⟨s.size, m.offset, m.adjustment⟩

/-- Modelled from the spec: the body of `StackAllocator::Allocate`
(declared memory.h line 129) is missing from the source tree.
Spec §4.4: "`Allocate` mirrors the linear allocator but additionally
records the alignment padding used so it can be undone". -/
def StackAllocator.Allocate (s : StackAllocator) (sz align : Nat) :
    Option Nat × StackAllocator :=
  if alignUp s.offset align + sz ≤ s.size then
    (some (alignUp s.offset align),
     ⟨s.size, alignUp s.offset align + sz, alignUp s.offset align - s.offset⟩)
  else (none, s)

/-- Run a list of `(size, alignment)` requests against a
StackAllocator, collecting each call's result. -/
def runStackAllocs (s : StackAllocator) : List (Nat × Nat) →
    StackAllocator × List (Option Nat)
  | [] => (s, [])
  | r :: rest =>
    ((runStackAllocs (s.Allocate r.1 r.2).2 rest).1,
     (s.Allocate r.1 r.2).1 :: (runStackAllocs (s.Allocate r.1 r.2).2 rest).2)

/-!
## MemoryManager statistics (memory.h lines 153-209)

The header declares `MemoryStats { totalAllocated, totalReserved,
allocatorUsage }` and `GetMemoryStats()`; the body is missing from
the source tree and is modelled from the spec. The registry is
abstracted to the association of each registered kind with its
allocator's `(GetAllocatedSize(), GetTotalSize())` pair; the
`unordered_map` of usage entries is modelled as an association list.
-/

/-- `MemoryManager::MemoryStats` (memory.h lines 202-206). -/
structure MemoryStats where
  totalAllocated : Nat
  totalReserved : Nat
  allocatorUsage : List (AllocatorType × Nat)
deriving DecidableEq, Repr

/-- The registry state: each registered kind with its allocator's
current `(allocated, total)` byte counts. -/
structure MemoryManager where
  allocators : List (AllocatorType × (Nat × Nat))
deriving DecidableEq, Repr

/-- One accumulation step of the statistics walk: fold a registered
allocator's `(allocated, total)` byte counts into the running stats
and record its per-kind usage entry. -/
def statsStep (st : MemoryStats) (e : AllocatorType × (Nat × Nat)) :
    MemoryStats :=
  ⟨st.totalAllocated + e.2.1, st.totalReserved + e.2.2,
   st.allocatorUsage ++ [(e.1, e.2.1)]⟩

/-- Modelled from the spec: the body of
`MemoryManager::GetMemoryStats` (declared memory.h line 208) is
missing from the source tree. Spec §4.5/§6: it reports
`{ totalAllocated, totalReserved, perKindUsage }`, accumulating each
registered allocator's allocated size into the total and into its
per-kind entry. -/
def MemoryManager.GetMemoryStats (mm : MemoryManager) : MemoryStats :=
  mm.allocators.foldl statsStep ⟨0, 0, []⟩

/-!
## Supporting lemmas
-/

/-- Nulling a slot preserves exclusive ownership. -/
lemma uniqueOwner_update_none {s : Store} (h : UniqueOwner s) (i : Nat) :
    UniqueOwner (Function.update s i none) := by
  intro x y a hx hy
  by_cases hxi : x = i
  · rw [hxi, Function.update_same] at hx
    simp at hx
  · rw [Function.update_noteq hxi] at hx
    by_cases hyi : y = i
    · rw [hyi, Function.update_same] at hy
      simp at hy
    · rw [Function.update_noteq hyi] at hy
      exact h x y a hx hy

/-- Writing a fresh address into a slot preserves exclusive
ownership, provided no other slot holds that address. -/
lemma uniqueOwner_update_fresh {s : Store} (h : UniqueOwner s) (i a : Nat)
    (ha : ∀ j, j ≠ i → s j ≠ some a) :
    UniqueOwner (Function.update s i (some a)) := by
  intro x y b hx hy
  by_cases hxi : x = i
  · by_cases hyi : y = i
    · rw [hxi, hyi]
    · rw [hxi, Function.update_same] at hx
      rw [Function.update_noteq hyi] at hy
      cases hx
      exact absurd hy (ha y hyi)
  · by_cases hyi : y = i
    · rw [hyi, Function.update_same] at hy
      rw [Function.update_noteq hxi] at hx
      cases hy
      exact absurd hx (ha x hxi)
    · rw [Function.update_noteq hxi] at hx
      rw [Function.update_noteq hyi] at hy
      exact h x y b hx hy

/-- Characterization of a slot of the ownership-transfer store:
`dst` takes the source's pointer, `src` is nulled, others keep
theirs. -/
lemma transfer_slot_eq {s : Store} {j src x : Nat} {b : Nat}
    (hx : Function.update (Function.update s j (s src)) src none x = some b) :
    x ≠ src ∧ ((x = j ∧ s src = some b) ∨ (x ≠ j ∧ s x = some b)) := by
  by_cases hxs : x = src
  · rw [hxs, Function.update_same] at hx
    simp at hx
  · rw [Function.update_noteq hxs] at hx
    refine ⟨hxs, ?_⟩
    by_cases hxj : x = j
    · rw [hxj, Function.update_same] at hx
      exact Or.inl ⟨hxj, hx⟩
    · rw [Function.update_noteq hxj] at hx
      exact Or.inr ⟨hxj, hx⟩

lemma uniqueOwner_transfer {s : Store} (h : UniqueOwner s) (j src : Nat) :
    UniqueOwner (Function.update (Function.update s j (s src)) src none) := by
  intro x y a hx hy
  obtain ⟨hxs, hx'⟩ := transfer_slot_eq hx
  obtain ⟨hys, hy'⟩ := transfer_slot_eq hy
  rcases hx' with ⟨hxj, hsx⟩ | ⟨hxj, hsx⟩ <;>
    rcases hy' with ⟨hyj, hsy⟩ | ⟨hyj, hsy⟩
  · rw [hxj, hyj]
  · exact absurd (h src y a hsx hsy).symm hys
  · exact absurd (h x src a hsx hsy) hxs
  · exact h x y a hsx hsy

/-- Every `Step` preserves exclusive ownership. -/
lemma step_preserves_uniqueOwner {s s' : Store} (hs : Step s s')
    (h : UniqueOwner s) : UniqueOwner s' := by
  cases hs with
  | ctorDefault j hj => exact uniqueOwner_update_none h j
  | ctorInitStep j a hj ha =>
      exact uniqueOwner_update_fresh h j a (fun i _ => ha i)
  | moveCtorStep j src hj hne =>
      exact uniqueOwner_transfer h j src
  | moveAssignStep dst src k =>
      by_cases hds : dst = src
      · simpa [moveAssignS, hds] using h
      · simpa [moveAssignS, hds] using uniqueOwner_transfer h dst src
  | resetStep i => exact uniqueOwner_update_none h i
  | resetWithStep i a ha => exact uniqueOwner_update_fresh h i a ha
  | dtorStep i => exact uniqueOwner_update_none h i

/-- Aligning an offset never moves it backwards. -/
lemma alignUp_ge (off a : Nat) : off ≤ alignUp off a := by
  unfold alignUp
  by_cases h : a = 0
  · rw [if_pos h]
  · rw [if_neg h]
    exact Nat.le_add_right _ _

/-- The aligned offset is aligned to a non-zero requested alignment. -/
lemma alignUp_mod (off a : Nat) (ha : a ≠ 0) : alignUp off a % a = 0 := by
  unfold alignUp
  rw [if_neg ha]
  by_cases h0 : off % a = 0
  · simp [h0, Nat.mod_self]
  · have hma : off % a < a := Nat.mod_lt _ (Nat.pos_of_ne_zero ha)
    have hlt : a - off % a < a := by omega
    rw [Nat.mod_eq_of_lt hlt]
    have hdm := Nat.div_add_mod off a
    have heq : off + (a - off % a) = a * (off / a + 1) := by
      rw [Nat.mul_add, Nat.mul_one]
      omega
    rw [heq]
    exact Nat.mul_mod_right a _


/-- The cumulative aligned size dominates the starting offset. -/
lemma cumAligned_ge (reqs : List (Nat × Nat)) :
    ∀ off : Nat, off ≤ cumAligned off reqs := by
  induction reqs with
  | nil => intro off; exact Nat.le_refl off
  | cons r rest ih =>
      intro off
      calc off ≤ alignUp off r.2 := alignUp_ge off r.2
        _ ≤ alignUp off r.2 + r.1 := Nat.le_add_right _ _
        _ ≤ cumAligned (alignUp off r.2 + r.1) rest := ih _

/-- Every allocation of a request list with cumulative aligned size
within capacity succeeds, stays inside the buffer, and meets its
requested alignment. -/
lemma runAllocs_ok (reqs : List (Nat × Nat)) :
    ∀ off cap : Nat, cumAligned off reqs ≤ cap →
      List.Forall₂
        (fun (r : Nat × Nat) (res : Option Nat) =>
          ∃ a, res = some a ∧ a + r.1 ≤ cap ∧ (r.2 ≠ 0 → a % r.2 = 0))
        reqs (runAllocs ⟨cap, off⟩ reqs).2 := by
  induction reqs with
  | nil => intro off cap h; exact List.Forall₂.nil
  | cons r rest ih =>
      intro off cap h
      have h' : cumAligned (alignUp off r.2 + r.1) rest ≤ cap := by
        simpa [cumAligned] using h
      have hok : alignUp off r.2 + r.1 ≤ cap :=
        Nat.le_trans (cumAligned_ge rest _) h'
      have hstep : LinearAllocator.Allocate ⟨cap, off⟩ r.1 r.2
          = (some (alignUp off r.2), ⟨cap, alignUp off r.2 + r.1⟩) := by
        simp [LinearAllocator.Allocate, hok]
      simp only [runAllocs, hstep]
      exact List.Forall₂.cons
        ⟨alignUp off r.2, rfl, hok, fun h2 => alignUp_mod off r.2 h2⟩
        (ih _ cap h')

/-- Folding the statistics step preserves the relation between the
running total and the recorded per-kind entries. -/
lemma statsFold_total (l : List (AllocatorType × (Nat × Nat))) :
    ∀ st : MemoryStats,
      st.totalAllocated = (st.allocatorUsage.map Prod.snd).sum →
      (l.foldl statsStep st).totalAllocated
        = ((l.foldl statsStep st).allocatorUsage.map Prod.snd).sum := by
  induction l with
  | nil => intro st h; exact h
  | cons e rest ih =>
      intro st h
      refine ih (statsStep st e) ?_
      simp [statsStep, h]

/-!
## Claim theorems
-/

/-- Claim C1 (code bug witness): the `AllocatedPtr` initializing
constructor uses a plain placement new, so when the element
constructor throws, the storage reserved from the bound allocator is
NOT released: starting from an allocator with `AllocatedSize() = 0`,
constructing an 8-byte element whose constructor throws leaves
`AllocatedSize() = 8`, and the effect trace contains no `Free` —
contradicting the claim that the allocator's allocated size is
unchanged on partial failure. -/
theorem ctorInit_throw_leaks :
    (ctorInit AllocatorType.Default 8 true ⟨0, 0⟩).2.1.allocatedSize = 8 ∧
    (ctorInit AllocatorType.Default 8 true ⟨0, 0⟩).1 = none ∧
    (ctorInit AllocatorType.Default 8 true ⟨0, 0⟩).2.2
      = [Effect.alloc AllocatorType.Default 8 0, Effect.ctorThrow 0] := by
  exact ⟨rfl, rfl, rfl⟩

/-- Claim C2: on every release path of an `AllocatedPtr` holding a
value — the destructor, `Reset()` with no arguments, and move
assignment over an occupied destination — the held value's
destructor runs first and the storage is returned to the bound
allocator via `MemoryManager::Free` only afterwards: each path's
effect trace is exactly `[dtor a, free kind a]`. -/
theorem release_order_dtor_before_free (kind : AllocatorType) (sz a : Nat)
    (p : Option Nat) (m : Mgr) (s : Store) (dst src : Nat)
    (hp : p = some a) (hneq : dst ≠ src) (hd : s dst = some a) :
    (dtorRun kind sz p m).2 = [Effect.dtor a, Effect.free kind a] ∧
    (resetNone kind sz p m).2.2 = [Effect.dtor a, Effect.free kind a] ∧
    (moveAssignS s dst src kind).2 = [Effect.dtor a, Effect.free kind a] := by
  subst hp
  refine ⟨rfl, rfl, ?_⟩
  simp [moveAssignS, hneq, hd]

theorem release_order_dtor_before_free_witness :
    (dtorRun AllocatorType.Default 8 (some 5) ⟨8, 16⟩).2
      = [Effect.dtor 5, Effect.free AllocatorType.Default 5] ∧
    (resetNone AllocatorType.Default 8 (some 5) ⟨8, 16⟩).2.2
      = [Effect.dtor 5, Effect.free AllocatorType.Default 5] ∧
    (moveAssignS (fun _ => some 5) 0 1 AllocatorType.Default).2
      = [Effect.dtor 5, Effect.free AllocatorType.Default 5] :=
  release_order_dtor_before_free AllocatorType.Default 8 5 (some 5) ⟨8, 16⟩
    (fun _ => some 5) 0 1 rfl (by decide) rfl

/-- Claim C3: along any sequence of `AllocatedPtr` operations (the
step relation has no copy step, since copy construction and copy
assignment are deleted), per-address exclusive ownership is
preserved; moreover move assignment hands the source's address to
the destination and nulls the source, and move construction does the
same, so only the destination can ever release the storage. -/
theorem allocatedPtr_exclusive_ownership (s s' : Store)
    (hs : Relation.ReflTransGen Step s s') (h : UniqueOwner s) :
    UniqueOwner s' ∧
    (∀ (t : Store) (dst src : Nat) (k : AllocatorType), dst ≠ src →
      (moveAssignS t dst src k).1 dst = t src ∧
      (moveAssignS t dst src k).1 src = none) ∧
    (∀ (t : Store) (j src : Nat), j ≠ src →
      moveCtorS t j src j = t src ∧ moveCtorS t j src src = none) := by
  refine ⟨?_, ?_, ?_⟩
  · induction hs with
    | refl => exact h
    | tail _ hstep ih => exact step_preserves_uniqueOwner hstep ih
  · intro t dst src k hne
    constructor
    · rw [moveAssignS, if_neg hne]
      show Function.update (Function.update t dst (t src)) src none dst = t src
      rw [Function.update_noteq hne, Function.update_same]
    · rw [moveAssignS, if_neg hne]
      show Function.update (Function.update t dst (t src)) src none src = none
      rw [Function.update_same]
  · intro t j src hne
    constructor
    · rw [moveCtorS, Function.update_noteq hne, Function.update_same]
    · rw [moveCtorS, Function.update_same]

theorem allocatedPtr_exclusive_ownership_witness :
    UniqueOwner
      (moveAssignS (Function.update (fun _ => none) 0 (some 5)) 1 0
        AllocatorType.Default).1 ∧
    (∀ (t : Store) (dst src : Nat) (k : AllocatorType), dst ≠ src →
      (moveAssignS t dst src k).1 dst = t src ∧
      (moveAssignS t dst src k).1 src = none) ∧
    (∀ (t : Store) (j src : Nat), j ≠ src →
      moveCtorS t j src j = t src ∧ moveCtorS t j src src = none) :=
  allocatedPtr_exclusive_ownership (fun _ => none)
    (moveAssignS (Function.update (fun _ => none) 0 (some 5)) 1 0
      AllocatorType.Default).1
    (Relation.ReflTransGen.tail
      (Relation.ReflTransGen.single
        (Step.ctorInitStep (fun _ => none) 0 5 rfl (fun i => by simp)))
      (Step.moveAssignStep (Function.update (fun _ => none) 0 (some 5)) 1 0
        AllocatorType.Default))
    (fun i j a hi _ => Option.noConfusion hi)

/-- Claim C4: for every `PoolAllocator` state satisfying the
invariant `freeBlocks ≤ blockCount`, the size_t equation
`GetAllocatedSize() + freeBlocks * blockSize == GetTotalSize()`
holds. -/
theorem pool_size_equation (p : PoolAllocator)
    (h : p.freeBlocks ≤ p.blockCount) :
    (p.GetAllocatedSize + (p.freeBlocks * p.blockSize) % sizetMod) % sizetMod
      = p.GetTotalSize := by
  show ((p.blockCount - p.freeBlocks) * p.blockSize % sizetMod
      + p.freeBlocks * p.blockSize % sizetMod) % sizetMod
      = p.blockCount * p.blockSize % sizetMod
  have h1 : (p.blockCount - p.freeBlocks) * p.blockSize
      + p.freeBlocks * p.blockSize = p.blockCount * p.blockSize := by
    rw [← Nat.add_mul, Nat.sub_add_cancel h]
  rw [← Nat.add_mod, h1]

theorem pool_size_equation_witness :
    ((PoolAllocator.mk 64 4 2).GetAllocatedSize
      + ((PoolAllocator.mk 64 4 2).freeBlocks
          * (PoolAllocator.mk 64 4 2).blockSize) % sizetMod) % sizetMod
      = (PoolAllocator.mk 64 4 2).GetTotalSize :=
  pool_size_equation ⟨64, 4, 2⟩ (by decide)

/-- Claim C5: `Reset(args...)` produces exactly the same wrapper
state, manager state and effect sequence as `Reset()` with no
arguments followed by the initializing-constructor body with the new
arguments, for every starting wrapper state, manager state and
element-constructor behavior. -/
theorem resetArgs_eq_reset_then_construct (kind : AllocatorType) (sz : Nat)
    (throws : Bool) (p : Option Nat) (m : Mgr) :
    resetArgs kind sz throws p m = resetArgsSpec kind sz throws p m := by
  cases p <;> cases throws <;> rfl

/-- Claim C6: for every sequence of `LinearAllocator::Allocate`
requests whose cumulative aligned size fits the capacity, every call
succeeds with an address inside the buffer satisfying the requested
alignment; and any call whose aligned reservation would exceed the
capacity fails without mutating the allocator state (so
`GetAllocatedSize()` is unchanged). -/
theorem linear_alloc_sequence_ok (cap : Nat) (reqs : List (Nat × Nat))
    (h : cumAligned 0 reqs ≤ cap) :
    List.Forall₂
      (fun (r : Nat × Nat) (res : Option Nat) =>
        ∃ a, res = some a ∧ a + r.1 ≤ cap ∧ (r.2 ≠ 0 → a % r.2 = 0))
      reqs (runAllocs ⟨cap, 0⟩ reqs).2 ∧
    ∀ (l : LinearAllocator) (sz al : Nat),
      l.size < alignUp l.offset al + sz →
      l.Allocate sz al = (none, l) ∧
      (l.Allocate sz al).2.GetAllocatedSize = l.GetAllocatedSize := by
  constructor
  · exact runAllocs_ok reqs 0 cap h
  · intro l sz al hover
    have hno : ¬ (alignUp l.offset al + sz ≤ l.size) := by omega
    constructor
    · rw [LinearAllocator.Allocate, if_neg hno]
    · rw [LinearAllocator.Allocate, if_neg hno]

theorem linear_alloc_sequence_ok_witness :
    List.Forall₂
      (fun (r : Nat × Nat) (res : Option Nat) =>
        ∃ a, res = some a ∧ a + r.1 ≤ 16 ∧ (r.2 ≠ 0 → a % r.2 = 0))
      [(4, 0), (3, 8)] (runAllocs ⟨16, 0⟩ [(4, 0), (3, 8)]).2 ∧
    ∀ (l : LinearAllocator) (sz al : Nat),
      l.size < alignUp l.offset al + sz →
      l.Allocate sz al = (none, l) ∧
      (l.Allocate sz al).2.GetAllocatedSize = l.GetAllocatedSize :=
  linear_alloc_sequence_ok 16 [(4, 0), (3, 8)] (by decide)

/-- Claim C7: capturing a marker, performing any number of
successful allocations, and then calling `FreeToMarker` with that
marker restores `GetAllocatedSize()` to exactly its value at the
moment the marker was taken. -/
theorem marker_roundtrip (s : StackAllocator) (reqs : List (Nat × Nat))
    (h : ∀ r ∈ (runStackAllocs s reqs).2, r.isSome = true) :
    ((runStackAllocs s reqs).1.FreeToMarker s.GetMarker).GetAllocatedSize
      = s.GetAllocatedSize := rfl

theorem marker_roundtrip_witness :
    ((runStackAllocs ⟨256, 0, 0⟩ [(100, 0), (50, 0)]).1.FreeToMarker
        (StackAllocator.GetMarker ⟨256, 0, 0⟩)).GetAllocatedSize
      = StackAllocator.GetAllocatedSize ⟨256, 0, 0⟩ :=
  marker_roundtrip ⟨256, 0, 0⟩ [(100, 0), (50, 0)] (by decide)

/-- Claim C8: the `MemoryStats` value returned by `GetMemoryStats()`
always satisfies `totalAllocated` = the sum of the per-kind usage
entries in `allocatorUsage`. -/
theorem stats_total_eq_sum (mm : MemoryManager) :
    mm.GetMemoryStats.totalAllocated
      = (mm.GetMemoryStats.allocatorUsage.map Prod.snd).sum :=
  statsFold_total mm.allocators ⟨0, 0, []⟩ rfl

/-- Claim C9: an `AllocatedPtr` holding no value converts to
`false`, `Get()` returns the null pointer, and destruction and
`Reset()` run no destructor and issue no `Free` (no double free on
an empty wrapper). -/
theorem empty_wrapper_inert (kind : AllocatorType) (sz : Nat)
    (p : Option Nat) (m : Mgr) (h : p = none) :
    toBoolFn p = false ∧ getFn p = none ∧
    dtorRun kind sz p m = (m, []) ∧
    resetNone kind sz p m = (none, m, []) := by
  subst h
  exact ⟨rfl, rfl, rfl, rfl⟩

theorem empty_wrapper_inert_witness :
    toBoolFn none = false ∧ getFn none = none ∧
    dtorRun AllocatorType.Default 8 none ⟨0, 0⟩ = (⟨0, 0⟩, []) ∧
    resetNone AllocatorType.Default 8 none ⟨0, 0⟩ = (none, ⟨0, 0⟩, []) :=
  empty_wrapper_inert AllocatorType.Default 8 none ⟨0, 0⟩ rfl

/-- Claim C10: move-assigning an `AllocatedPtr` to itself (the
`this != &other` guard) leaves the wrapper store unchanged and
performs no destructor call and no `Free`. -/
theorem moveAssign_self_noop (s : Store) (i : Nat) (k : AllocatorType) :
    moveAssignS s i i k = (s, []) := by
  rw [moveAssignS, if_pos rfl]

end CHULUBME
